import Mathlib

/-!
# Verification of the gf `TileLayer` geometry engine

Shallow embedding of `src/library/graphics/TileLayer.cc` (namespace `gf`).
Machine integers are modelled as `ℤ` and `float` values as `ℚ` (the float
computations in the source stay far from overflow and, at the inputs used
here, from rounding subtleties).  Collaborator classes that are declared in
headers outside the excerpt (`gf::Rect`, `gf::Vector`, `gf::Array2D`,
`gf::Tileset`, `gf::View`) are modelled from the spec, as marked on each
definition.
-/

namespace GfTileLayer

/-- 2D vector, modelling `gf::Vector<T, 2>` (`x` = `width`, `y` = `height`). -/
structure Vec2 (α : Type) where
  x : α
  y : α
deriving DecidableEq

instance [Add α] : Add (Vec2 α) := ⟨fun a b => ⟨a.x + b.x, a.y + b.y⟩⟩

instance [Sub α] : Sub (Vec2 α) := ⟨fun a b => ⟨a.x - b.x, a.y - b.y⟩⟩

/-- Componentwise product, modelling gf's componentwise `operator*` on vectors. -/
instance [Mul α] : Mul (Vec2 α) := ⟨fun a b => ⟨a.x * b.x, a.y * b.y⟩⟩

/-- Conversion of an integer vector to a rational vector
(the implicit `Vector2i` → `Vector2f` conversions of the source). -/
def Vec2.toQ (v : Vec2 ℤ) : Vec2 ℚ := ⟨(v.x : ℚ), (v.y : ℚ)⟩

/-- C++ integer division truncates toward zero; Lean's `/` on `ℤ` does not,
so the source's `int` divisions are embedded with `Int.tdiv`. -/
def cppDiv (a b : ℤ) : ℤ := Int.tdiv a b

/-- Truncation of a `float` on conversion to `int` in C++ (toward zero). -/
def truncQ (q : ℚ) : ℤ := if 0 ≤ q then ⌊q⌋ else ⌈q⌉

/-- Modelled from the spec: `gf::Rect<T>` stores the two corners `min` and
`max`; `fromPositionSize(position, size)` is the rectangle from `position`
to `position + size` (the spec reads `fromPositionSize({0,0}, layerSize-1)`
as the inclusive grid rectangle `[0, layerSize-1]`). -/
structure Rect2 (α : Type) where
  min : Vec2 α
  max : Vec2 α
deriving DecidableEq

def Rect2.fromPositionSize [Add α] (position size : Vec2 α) : Rect2 α :=
  ⟨position, position + size⟩

def Rect2.getPosition (r : Rect2 α) : Vec2 α := r.min

def Rect2.getSize [Sub α] (r : Rect2 α) : Vec2 α := r.max - r.min

def Rect2.getTopLeft (r : Rect2 α) : Vec2 α := r.min

def Rect2.getTopRight (r : Rect2 α) : Vec2 α := ⟨r.max.x, r.min.y⟩

def Rect2.getBottomLeft (r : Rect2 α) : Vec2 α := ⟨r.min.x, r.max.y⟩

def Rect2.getBottomRight (r : Rect2 α) : Vec2 α := r.max

/-- Modelled from the spec: `RectF::fromCenterSize(center, size)`. -/
def Rect2.fromCenterSize (c s : Vec2 ℚ) : Rect2 ℚ :=
  ⟨⟨c.x - s.x / 2, c.y - s.y / 2⟩, ⟨c.x + s.x / 2, c.y + s.y / 2⟩⟩

/-- Modelled from the spec: `Rect::grow(g)` widens the rectangle by `g`
on every side. -/
def Rect2.grow (r : Rect2 ℚ) (g : ℚ) : Rect2 ℚ :=
  ⟨⟨r.min.x - g, r.min.y - g⟩, ⟨r.max.x + g, r.max.y + g⟩⟩

/-- Modelled from the spec: the designated "empty" rectangle (`RectI::empty()`);
its `min` exceeds its `max`, so the inclusive iteration over it is empty. -/
def emptyRectI : Rect2 ℤ := ⟨⟨0, 0⟩, ⟨-1, -1⟩⟩

/-- Modelled from the spec: two real rectangles intersect when they overlap
with positive area (`RectF::intersects`). -/
def rectsIntersect (a b : Rect2 ℚ) : Prop :=
  a.min.x < b.max.x ∧ b.min.x < a.max.x ∧ a.min.y < b.max.y ∧ b.min.y < a.max.y

instance (a b : Rect2 ℚ) : Decidable (rectsIntersect a b) := by
  unfold rectsIntersect; infer_instance

/-- Modelled from the spec: the intersection of two overlapping real
rectangles (the out-parameter of `RectF::intersects`). -/
def interRect (a b : Rect2 ℚ) : Rect2 ℚ :=
  ⟨⟨max a.min.x b.min.x, max a.min.y b.min.y⟩, ⟨min a.max.x b.max.x, min a.max.y b.max.y⟩⟩

/-- Modelled from the spec: the grid rectangle "is clamped to
`[0, layerSize - 1]`" — componentwise clamping of one integer rectangle's
bounds by another's. -/
def clampTo (a bound : Rect2 ℤ) : Rect2 ℤ :=
  ⟨⟨max a.min.x bound.min.x, max a.min.y bound.min.y⟩,
   ⟨min a.max.x bound.max.x, min a.max.y bound.max.y⟩⟩

/-- `r` lies within the bounds of `b` (used to state "clamped within"). -/
def rectWithin (r b : Rect2 ℤ) : Prop :=
  b.min.x ≤ r.min.x ∧ b.min.y ≤ r.min.y ∧ r.max.x ≤ b.max.x ∧ r.max.y ≤ b.max.y

/-- `TileLayer::NoTile` sentinel (spec: "empty-tile sentinel"). -/
def NoTile : ℤ := -1

/-- The three flip flags of `gf::Flip`, as a record of booleans
(spec: "a small fixed bit-set"). -/
structure Flips where
  horizontally : Bool
  vertically : Bool
  diagonally : Bool
deriving DecidableEq

/-- The empty flip set (`None` in the source). -/
def Flips.noFlip : Flips := ⟨false, false, false⟩

/-- A grid cell: tile index plus flip flags (`TileLayer::Cell`). -/
structure Cell where
  tile : ℤ
  flip : Flips
deriving DecidableEq

/-- `gf::TileOrientation`. -/
inductive TileOrientation where
  | Unknown
  | Orthogonal
  | Staggered
deriving DecidableEq

/-- Modelled from the spec: the external `Tileset` collaborator interface —
`hasTexture()`, `getTileSize()`, `getOffset()`, `computeTextureCoords(tile)`. -/
structure Tileset where
  hasTexture : Bool
  tileSize : Vec2 ℤ
  offset : Vec2 ℚ
  texCoords : ℤ → Rect2 ℚ

/-- Modelled from the spec: the `View` collaborator — `getCenter()`, `getSize()`. -/
structure View where
  center : Vec2 ℚ
  size : Vec2 ℚ

/-- A vertex: position plus texture coordinates (`gf::Vertex`). -/
structure Vertex where
  position : Vec2 ℚ
  texCoords : Vec2 ℚ
deriving DecidableEq

/-- The state of a `TileLayer`.  The grid (`m_tiles`, an `Array2D` outside the
excerpt) is modelled from the spec as a total function on coordinates, with
validity of an access judged against `layerSize` (spec §4.1: fixed-size dense
2D array, bounds are a precondition). -/
structure TileLayer where
  orientation : TileOrientation
  layerSize : Vec2 ℤ
  tileSize : Vec2 ℤ
  tiles : Vec2 ℤ → Cell
  rect : Rect2 ℤ
  vertices : List Vertex
  tileset : Tileset

/-- Grid-coordinate validity: `[0, width) × [0, height)` (spec §3). -/
def validPos (size p : Vec2 ℤ) : Prop :=
  0 ≤ p.x ∧ p.x < size.x ∧ 0 ≤ p.y ∧ p.y < size.y

instance (size p : Vec2 ℤ) : Decidable (validPos size p) := by
  unfold validPos; infer_instance

/-- `TileLayer::setTile` (the bounds assert is a precondition, not control flow). -/
def TileLayer.setTile (st : TileLayer) (p : Vec2 ℤ) (tile : ℤ) (flip : Flips) : TileLayer :=
  { st with tiles := fun q => if q = p then ⟨tile, flip⟩ else st.tiles q }

/-- `TileLayer::getTile`. -/
def TileLayer.getTile (st : TileLayer) (p : Vec2 ℤ) : ℤ := (st.tiles p).tile

/-- `TileLayer::getFlip`. -/
def TileLayer.getFlip (st : TileLayer) (p : Vec2 ℤ) : Flips := (st.tiles p).flip

/-- `TileLayer::clear`: every cell becomes `{NoTile, None}`. -/
def TileLayer.clear (st : TileLayer) : TileLayer :=
  { st with tiles := fun _ => ⟨NoTile, Flips.noFlip⟩ }

/-- The two-argument `TileLayer` constructor: stores size and orientation,
zero tile size, empty cached rectangle, empty vertex array, and calls
`clear()`. -/
def TileLayer.init (layerSize : Vec2 ℤ) (orientation : TileOrientation)
    (tileset : Tileset) : TileLayer :=
  TileLayer.clear
    { orientation := orientation
      layerSize := layerSize
      tileSize := ⟨0, 0⟩
      tiles := fun _ => ⟨NoTile, Flips.noFlip⟩
      rect := emptyRectI
      vertices := []
      tileset := tileset }

/-- The world box of one cell (`fillVertexArray`, lines 176–197): Orthogonal
uses the layer tile size and `cell * tileSize + offset`; Staggered uses the
tileset's own tile size, halves the vertical coordinate (float division), and
shifts odd rows right by `tileSize.width / 2` (integer division). -/
def cellBox (st : TileLayer) (cell : Vec2 ℤ) : Rect2 ℚ :=
  if st.orientation = TileOrientation.Orthogonal then
    Rect2.fromPositionSize ((cell * st.tileSize).toQ + st.tileset.offset) (st.tileSize).toQ
  else
    let p0 := (cell * st.tileSize).toQ
    let py : Vec2 ℚ := ⟨p0.x, p0.y / 2⟩
    let p1 : Vec2 ℚ :=
      if cell.y % 2 = 0 then py else ⟨py.x + ((cppDiv st.tileSize.x 2 : ℤ) : ℚ), py.y⟩
    Rect2.fromPositionSize (p1 + st.tileset.offset) (st.tileset.tileSize).toQ

/-- The three conditional texture-coordinate swaps of `fillVertexArray`
(lines 222–234), on the tuple (vertices[0], ..., vertices[3]).texCoords:
Diagonally swaps entries 1 and 2, Horizontally swaps 0↔1 and 2↔3,
Vertically swaps 0↔2 and 1↔3. -/
def applyFlips {α : Type} (flip : Flips) (t : α × α × α × α) : α × α × α × α :=
  let t1 := if flip.diagonally then (t.1, t.2.2.1, t.2.1, t.2.2.2) else t
  let t2 := if flip.horizontally then (t1.2.1, t1.1, t1.2.2.2, t1.2.2.1) else t1
  if flip.vertically then (t2.2.2.1, t2.2.2.2, t2.1, t2.2.1) else t2

/-- The six vertices emitted for one cell by `fillVertexArray`: nothing for an
empty cell; otherwise the two triangles (v0,v1,v2) and (v2,v1,v3) over the
corner vertices, with flips applied to texture coordinates only. -/
def tessellateCell (st : TileLayer) (cell : Vec2 ℤ) : List Vertex :=
  let c := st.tiles cell
  if c.tile = NoTile then []
  else
    let box := cellBox st cell
    let tc := st.tileset.texCoords c.tile
    let t := applyFlips c.flip (tc.getTopLeft, tc.getTopRight, tc.getBottomLeft, tc.getBottomRight)
    [⟨box.getTopLeft, t.1⟩, ⟨box.getTopRight, t.2.1⟩, ⟨box.getBottomLeft, t.2.2.1⟩,
     ⟨box.getBottomLeft, t.2.2.1⟩, ⟨box.getTopRight, t.2.1⟩, ⟨box.getBottomRight, t.2.2.2⟩]

/-- `n` consecutive integers starting at `lo`. -/
def intRangeAux (lo : ℤ) : ℕ → List ℤ
  | 0 => []
  | n + 1 => lo :: intRangeAux (lo + 1) n

/-- The inclusive integer range `[lo, hi]` as a list (empty when `lo > hi`). -/
def intRange (lo hi : ℤ) : List ℤ := intRangeAux lo (hi + 1 - lo).toNat

/-- The cells visited by the nested loops of `fillVertexArray` over the
inclusive rectangle `rect` (y outer, x inner — lines 163–164). -/
def visitedCells (r : Rect2 ℤ) : List (Vec2 ℤ) :=
  (intRange r.min.y r.max.y).flatMap (fun y =>
    (intRange r.min.x r.max.x).map (fun x => ⟨x, y⟩))

/-- `TileLayer::fillVertexArray`: the vertex stream appended over the visited
cells. -/
def fillVertexArray (st : TileLayer) (r : Rect2 ℤ) : List Vertex :=
  (visitedCells r).flatMap (tessellateCell st)

/-- The rectangle `commitGeometry` passes to `fillVertexArray`
(line 101): `RectI::fromPositionSize({0, 0}, m_layerSize)`. -/
def commitRect (layerSize : Vec2 ℤ) : Rect2 ℤ :=
  Rect2.fromPositionSize ⟨0, 0⟩ layerSize

/-- `TileLayer::commitGeometry`: tessellate the rectangle `commitRect` of the
whole layer into a fresh vertex array. -/
def commitGeometry (st : TileLayer) : List Vertex :=
  fillVertexArray st (commitRect st.layerSize)

/-- The exact value of the `float` constant `gf::Sqrt2`
(`11863283 * 2⁻²³`, the binary32 value nearest √2). -/
def sqrt2 : ℚ := 11863283 / 8388608

/-- The effective tile size of `draw` (lines 112–116): Staggered halves the
height (C++ integer division). -/
def effTileSize (st : TileLayer) : Vec2 ℤ :=
  if st.orientation = TileOrientation.Staggered then ⟨st.tileSize.x, cppDiv st.tileSize.y 2⟩
  else st.tileSize

/-- The growth margin of `draw` (line 127): `max(tileSize.width, tileSize.height)`. -/
def growAmount (e : Vec2 ℤ) : ℚ := ((max e.x e.y : ℤ) : ℚ)

/-- The candidate world square of `draw` (lines 121–126): both sides are
`Sqrt2 * max(view width, view height)`, centered on the view center. -/
def viewSquare (view : View) : Rect2 ℚ :=
  let s := sqrt2 * max view.size.x view.size.y
  Rect2.fromCenterSize view.center ⟨s, s⟩

/-- The local-space candidate rectangle of `draw` (line 127), grown by the
effective tile size margin.  The layer sits at its default (identity)
transform, so `gf::transform(getInverseTransform(), world)` is `world`
itself (the transform lives in the `Transformable` collaborator outside the
excerpt). -/
def localRect (st : TileLayer) (view : View) : Rect2 ℚ :=
  (viewSquare view).grow (growAmount (effTileSize st))

/-- The layer's world rectangle (line 129): `layerSize * effective tile size`. -/
def layerWorldRect (st : TileLayer) : Rect2 ℚ :=
  Rect2.fromPositionSize ⟨0, 0⟩ ((st.layerSize * effTileSize st).toQ)

/-- The unclamped grid rectangle of `draw` (line 135): positions and sizes
divided by the effective tile size, shifted by `+0.5`, then truncated to
integers. -/
def gridCandidate (st : TileLayer) (view : View) : Rect2 ℤ :=
  let e := (effTileSize st).toQ
  let i := interRect (localRect st view) (layerWorldRect st)
  Rect2.fromPositionSize
    ⟨truncQ (i.getPosition.x / e.x + 1/2), truncQ (i.getPosition.y / e.y + 1/2)⟩
    ⟨truncQ (i.getSize.x / e.x + 1/2), truncQ (i.getSize.y / e.y + 1/2)⟩

/-- The clamping rectangle of `draw` (line 136):
`RectI::fromPositionSize({0, 0}, m_layerSize - 1)`, i.e. `[0, layerSize-1]`. -/
def clampRect (st : TileLayer) : Rect2 ℤ :=
  Rect2.fromPositionSize ⟨0, 0⟩ (st.layerSize - ⟨1, 1⟩)

/-- The visible grid rectangle computed by `draw` (lines 112–137): the grid
candidate clamped to `[0, layerSize - 1]` when the grown local rectangle meets
the layer rectangle, the designated empty rectangle otherwise. -/
def computeVisibleRect (st : TileLayer) (view : View) : Rect2 ℤ :=
  if rectsIntersect (localRect st view) (layerWorldRect st) then
    clampTo (gridCandidate st view) (clampRect st)
  else emptyRectI

/-- `TileLayer::updateGeometry`: clear the vertex array; refill it over the
cached rectangle unless the tileset has no texture or a tile-size component
is zero. -/
def updateGeometry (st : TileLayer) : TileLayer :=
  if st.tileset.hasTexture = false ∨ st.tileSize.x = 0 ∨ st.tileSize.y = 0 then
    { st with vertices := [] }
  else
    { st with vertices := fillVertexArray st st.rect }

/-- The observable outcome of one `TileLayer::draw` call: the new layer state,
the vertices handed to the render target (`none` when `draw` returned before
drawing anything), and whether the vertex array was re-tessellated. -/
structure DrawResult where
  state : TileLayer
  emitted : Option (List Vertex)
  retessellated : Bool

/-- `TileLayer::draw` (lines 107–155): early return when no texture is bound
or the orientation is Unknown; otherwise compute the visible rectangle,
rebuild the vertex array only when it differs from the cached one, and hand
the vertex array to the target. -/
def drawStep (st : TileLayer) (view : View) : DrawResult :=
  if st.tileset.hasTexture = false ∨ st.orientation = TileOrientation.Unknown then
    ⟨st, Option.none, false⟩
  else
    let r := computeVisibleRect st view
    if r = st.rect then ⟨st, Option.some st.vertices, false⟩
    else
      let st2 := updateGeometry { st with rect := r }
      ⟨st2, Option.some st2.vertices, true⟩

/-- `TileLayer::setTileSize`. -/
def TileLayer.setTileSize (st : TileLayer) (ts : Vec2 ℤ) : TileLayer :=
  { st with tileSize := ts }

/-- Applying a sequence of `setTile` operations in order. -/
def applyOps (st : TileLayer) (ops : List (Vec2 ℤ × ℤ × Flips)) : TileLayer :=
  ops.foldl (fun s o => s.setTile o.1 o.2.1 o.2.2) st

/-- An assignment of texture coordinates to the four corners of a cell. -/
structure CornerAssign where
  topLeft : Vec2 ℚ
  topRight : Vec2 ℚ
  bottomLeft : Vec2 ℚ
  bottomRight : Vec2 ℚ
deriving DecidableEq

/-- The texture-coordinate assignment described by the spec's flip contract:
start from the identity assignment (top-left = uv0, top-right = uv1,
bottom-left = uv2, bottom-right = uv3); if Diagonal is set swap top-right and
bottom-left; then if Horizontal is set swap top-left with top-right and
bottom-left with bottom-right; then if Vertical is set swap top-left with
bottom-left and top-right with bottom-right. -/
def specCornerAssign (flip : Flips) (tc : Rect2 ℚ) : CornerAssign :=
  let a : CornerAssign := ⟨tc.getTopLeft, tc.getTopRight, tc.getBottomLeft, tc.getBottomRight⟩
  let b := if flip.diagonally then
      { a with topRight := a.bottomLeft, bottomLeft := a.topRight } else a
  let c := if flip.horizontally then
      (⟨b.topRight, b.topLeft, b.bottomRight, b.bottomLeft⟩ : CornerAssign) else b
  if flip.vertically then (⟨c.bottomLeft, c.bottomRight, c.topLeft, c.topRight⟩ : CornerAssign)
  else c

/-! ## Example states used by the concrete instances -/

/-- A tileset with a texture bound, 32×32 tiles, zero offset. -/
def exTileset : Tileset :=
  ⟨true, ⟨32, 32⟩, ⟨0, 0⟩, fun _ => Rect2.fromPositionSize ⟨0, 0⟩ ⟨1, 1⟩⟩

/-- A 2×2 orthogonal layer over `exTileset`, untouched since construction. -/
def exLayerBase : TileLayer := TileLayer.init ⟨2, 2⟩ TileOrientation.Orthogonal exTileset

/-- `exLayerBase` with 32×32 layer tiles and one tile set at the origin with
the Horizontal and Diagonal flips. -/
def exLayerHD : TileLayer :=
  ((exLayerBase.setTileSize ⟨32, 32⟩).setTile ⟨0, 0⟩ 3 ⟨true, false, true⟩)

/-- An orthogonal layer with a plain tile at the origin. -/
def exLayerOrtho : TileLayer :=
  ((exLayerBase.setTileSize ⟨32, 32⟩).setTile ⟨0, 0⟩ 0 Flips.noFlip)

/-- A staggered 4×4 layer with 32×64 layer tiles. -/
def exLayerStag : TileLayer :=
  (TileLayer.init ⟨4, 4⟩ TileOrientation.Staggered exTileset).setTileSize ⟨32, 64⟩

/-- A layer whose tileset has no texture bound. -/
def exLayerNoTex : TileLayer :=
  TileLayer.init ⟨2, 2⟩ TileOrientation.Orthogonal
    ⟨false, ⟨32, 32⟩, ⟨0, 0⟩, fun _ => Rect2.fromPositionSize ⟨0, 0⟩ ⟨1, 1⟩⟩

/-! ## Helper lemmas -/

theorem Vec2.add_def [Add α] (a b : Vec2 α) : a + b = ⟨a.x + b.x, a.y + b.y⟩ := rfl

theorem Vec2.sub_def [Sub α] (a b : Vec2 α) : a - b = ⟨a.x - b.x, a.y - b.y⟩ := rfl

theorem Vec2.mul_def [Mul α] (a b : Vec2 α) : a * b = ⟨a.x * b.x, a.y * b.y⟩ := rfl

theorem getSize_fromPositionSize (p s : Vec2 ℚ) :
    (Rect2.fromPositionSize p s).getSize = s := by
  simp [Rect2.fromPositionSize, Rect2.getSize, Vec2.add_def, Vec2.sub_def]

/-! ## Claim theorems -/

/-- Claim C1: for every non-empty tessellated cell the flip transforms act on
the texture coordinates only — the six emitted positions are the unflipped box
corners for every flip combination — and the texture-coordinate assignment is
exactly the spec's sequence (identity assignment, then the Diagonal swap, then
the Horizontal swaps, then the Vertical swaps); in particular a cell with both
Horizontal and Diagonal set gets the Diagonal-then-Horizontal swap of the
identity assignment. -/
theorem flip_order_texcoords_only (st : TileLayer) (cell : Vec2 ℤ)
    (h : (st.tiles cell).tile ≠ NoTile) :
    (tessellateCell st cell =
      (let box := cellBox st cell
       let a := specCornerAssign (st.tiles cell).flip
         (st.tileset.texCoords (st.tiles cell).tile)
       [⟨box.getTopLeft, a.topLeft⟩, ⟨box.getTopRight, a.topRight⟩,
        ⟨box.getBottomLeft, a.bottomLeft⟩, ⟨box.getBottomLeft, a.bottomLeft⟩,
        ⟨box.getTopRight, a.topRight⟩, ⟨box.getBottomRight, a.bottomRight⟩])) ∧
    ((st.tiles cell).flip = ⟨true, false, true⟩ →
      specCornerAssign (st.tiles cell).flip (st.tileset.texCoords (st.tiles cell).tile) =
        (let tc := st.tileset.texCoords (st.tiles cell).tile
         ⟨tc.getBottomLeft, tc.getTopLeft, tc.getBottomRight, tc.getTopRight⟩)) := by
  constructor
  · simp only [tessellateCell, specCornerAssign, applyFlips]
    rw [if_neg h]
    rcases hf : (st.tiles cell).flip with ⟨hh, vv, dd⟩
    cases hh <;> cases vv <;> cases dd <;> rfl
  · intro hf
    simp only [specCornerAssign]
    rw [hf]
    rfl

/-- Concrete instance of C1 at a set tile with Horizontal and Diagonal flips. -/
theorem flip_order_texcoords_only_witness :
    ((exLayerHD.tiles ⟨0, 0⟩).tile ≠ NoTile) ∧
    (tessellateCell exLayerHD ⟨0, 0⟩ =
      (let box := cellBox exLayerHD ⟨0, 0⟩
       let a := specCornerAssign (exLayerHD.tiles ⟨0, 0⟩).flip
         (exLayerHD.tileset.texCoords (exLayerHD.tiles ⟨0, 0⟩).tile)
       [⟨box.getTopLeft, a.topLeft⟩, ⟨box.getTopRight, a.topRight⟩,
        ⟨box.getBottomLeft, a.bottomLeft⟩, ⟨box.getBottomLeft, a.bottomLeft⟩,
        ⟨box.getTopRight, a.topRight⟩, ⟨box.getBottomRight, a.bottomRight⟩])) :=
  ⟨by decide, (flip_order_texcoords_only exLayerHD ⟨0, 0⟩ (by decide)).1⟩

/-- Claim C5: staggered placement — the box size is the tileset's per-tile
size; even rows sit at `cell.y/2 * tileSize.height`; odd rows are additionally
shifted right by the integer half of `tileSize.width`, with the vertical
coordinate `cell.y * tileSize.height / 2`; and with tile size (32, 64) the
cell (0,1) box is offset by (16, 32) relative to the cell (0,0) box. -/
theorem staggered_placement (st : TileLayer) (cell : Vec2 ℤ)
    (ho : st.orientation = TileOrientation.Staggered) :
    ((cellBox st cell).getSize = (st.tileset.tileSize).toQ) ∧
    (cell.y % 2 = 0 →
      (cellBox st cell).getPosition =
        ⟨((cell.x * st.tileSize.x : ℤ) : ℚ) + st.tileset.offset.x,
         ((cell.y / 2 * st.tileSize.y : ℤ) : ℚ) + st.tileset.offset.y⟩) ∧
    (cell.y % 2 ≠ 0 →
      (cellBox st cell).getPosition =
        ⟨((cell.x * st.tileSize.x + cppDiv st.tileSize.x 2 : ℤ) : ℚ) + st.tileset.offset.x,
         ((cell.y * st.tileSize.y : ℤ) : ℚ) / 2 + st.tileset.offset.y⟩) ∧
    (st.tileSize = ⟨32, 64⟩ →
      ((cellBox st ⟨0, 1⟩).getPosition.x - (cellBox st ⟨0, 0⟩).getPosition.x = 16 ∧
       (cellBox st ⟨0, 1⟩).getPosition.y - (cellBox st ⟨0, 0⟩).getPosition.y = 32)) := by
  have hno : st.orientation ≠ TileOrientation.Orthogonal := by rw [ho]; decide
  have heven : ∀ c : Vec2 ℤ, c.y % 2 = 0 → (cellBox st c).getPosition =
      ⟨((c.x * st.tileSize.x : ℤ) : ℚ) + st.tileset.offset.x,
       ((c.y * st.tileSize.y : ℤ) : ℚ) / 2 + st.tileset.offset.y⟩ := by
    intro c hc
    simp only [cellBox]
    rw [if_neg hno, if_pos hc]
    rfl
  have hoddf : ∀ c : Vec2 ℤ, c.y % 2 ≠ 0 → (cellBox st c).getPosition =
      ⟨((c.x * st.tileSize.x : ℤ) : ℚ) + ((cppDiv st.tileSize.x 2 : ℤ) : ℚ) +
        st.tileset.offset.x,
       ((c.y * st.tileSize.y : ℤ) : ℚ) / 2 + st.tileset.offset.y⟩ := by
    intro c hc
    simp only [cellBox]
    rw [if_neg hno, if_neg hc]
    rfl
  refine ⟨?_, ?_, ?_, ?_⟩
  · simp only [cellBox]
    rw [if_neg hno]
    exact getSize_fromPositionSize _ _
  · intro hev
    rw [heven cell hev]
    obtain ⟨k, hk⟩ : (2 : ℤ) ∣ cell.y := Int.dvd_of_emod_eq_zero hev
    simp only [Vec2.mk.injEq]
    refine ⟨by trivial, ?_⟩
    rw [hk, Int.mul_ediv_cancel_left _ (by norm_num : (2 : ℤ) ≠ 0)]
    push_cast
    ring
  · intro hodd
    rw [hoddf cell hodd]
    simp only [Vec2.mk.injEq]
    refine ⟨?_, by trivial⟩
    push_cast
    ring
  · intro hts
    rw [hoddf ⟨0, 1⟩ (by decide), heven ⟨0, 0⟩ (by decide), hts]
    norm_num [cppDiv, show Int.tdiv 32 2 = 16 from rfl]

/-- Concrete instance of C5 on a staggered layer with 32×64 tiles. -/
theorem staggered_placement_witness :
    (exLayerStag.orientation = TileOrientation.Staggered) ∧
    ((cellBox exLayerStag ⟨0, 1⟩).getPosition.x - (cellBox exLayerStag ⟨0, 0⟩).getPosition.x = 16 ∧
     (cellBox exLayerStag ⟨0, 1⟩).getPosition.y - (cellBox exLayerStag ⟨0, 0⟩).getPosition.y = 32) :=
  ⟨rfl, (staggered_placement exLayerStag ⟨0, 0⟩ rfl).2.2.2 rfl⟩

/-- Claim C9: orthogonal placement — the six emitted vertex positions are the
corners of the box at `cell * tileSize + tilesetOffset` sized `tileSize`, and
a cell at (0,0) with tile size (32,32) and zero offset yields the box at the
world origin sized 32×32. -/
theorem orthogonal_placement (st : TileLayer) (cell : Vec2 ℤ)
    (ho : st.orientation = TileOrientation.Orthogonal)
    (h : (st.tiles cell).tile ≠ NoTile) :
    ((tessellateCell st cell).map Vertex.position =
      (let p := (cell * st.tileSize).toQ + st.tileset.offset
       let w : ℚ := (st.tileSize.x : ℚ)
       let v : ℚ := (st.tileSize.y : ℚ)
       [p, ⟨p.x + w, p.y⟩, ⟨p.x, p.y + v⟩, ⟨p.x, p.y + v⟩, ⟨p.x + w, p.y⟩,
        ⟨p.x + w, p.y + v⟩])) ∧
    ((cellBox st cell).getPosition = (cell * st.tileSize).toQ + st.tileset.offset ∧
     (cellBox st cell).getSize = (st.tileSize).toQ) ∧
    (st.tileSize = ⟨32, 32⟩ → st.tileset.offset = ⟨0, 0⟩ →
      cellBox st ⟨0, 0⟩ = Rect2.fromPositionSize ⟨0, 0⟩ ⟨32, 32⟩) := by
  have hbox : cellBox st cell =
      Rect2.fromPositionSize ((cell * st.tileSize).toQ + st.tileset.offset) (st.tileSize).toQ := by
    simp only [cellBox]
    rw [if_pos ho]
  refine ⟨?_, ⟨?_, ?_⟩, ?_⟩
  · simp only [tessellateCell]
    rw [if_neg h, hbox]
    simp only [List.map_cons, List.map_nil, Rect2.fromPositionSize, Rect2.getTopLeft,
      Rect2.getTopRight, Rect2.getBottomLeft, Rect2.getBottomRight, Vec2.toQ, Vec2.mul_def,
      Vec2.add_def]
  · rw [hbox]; rfl
  · rw [hbox]; exact getSize_fromPositionSize _ _
  · intro hts hoff
    simp only [cellBox]
    rw [if_pos ho, hts, hoff]
    simp only [Rect2.fromPositionSize, Vec2.toQ, Vec2.mul_def, Vec2.add_def]
    norm_num

/-- Concrete instance of C9: origin cell, 32×32 tiles, zero offset. -/
theorem orthogonal_placement_witness :
    ((exLayerOrtho.tiles ⟨0, 0⟩).tile ≠ NoTile) ∧
    cellBox exLayerOrtho ⟨0, 0⟩ = Rect2.fromPositionSize ⟨0, 0⟩ ⟨32, 32⟩ :=
  ⟨by decide, (orthogonal_placement exLayerOrtho ⟨0, 0⟩ rfl (by decide)).2.2 rfl rfl⟩

/-- At positions other than `p`, a sequence of `setTile` calls leaves the cell
at `p` untouched. -/
theorem applyOps_tiles_eq (p : Vec2 ℤ) (ops : List (Vec2 ℤ × ℤ × Flips)) :
    ∀ st : TileLayer, (∀ o ∈ ops, o.1 ≠ p) → (applyOps st ops).tiles p = st.tiles p := by
  induction ops with
  | nil => intro st _; rfl
  | cons o ops ih =>
    intro st h
    have h1 : o.1 ≠ p := h o (List.mem_cons_self o ops)
    have h2 : ∀ o' ∈ ops, o'.1 ≠ p := fun o' ho' => h o' (List.mem_cons_of_mem o ho')
    show (applyOps (st.setTile o.1 o.2.1 o.2.2) ops).tiles p = st.tiles p
    rw [ih _ h2]
    simp only [TileLayer.setTile]
    rw [if_neg (Ne.symm h1)]

/-- Claim C7: after `setTile(p, t, f)` at an in-bounds position `p`, `getTile`
and `getFlip` at `p` return exactly `t` and `f`; no other cell changes; and
the values persist under any further `setTile` calls at positions other
than `p`. -/
theorem setTile_get_persistence (st : TileLayer) (p : Vec2 ℤ) (t : ℤ) (f : Flips)
    (_hp : validPos st.layerSize p) :
    ((st.setTile p t f).getTile p = t ∧ (st.setTile p t f).getFlip p = f) ∧
    (∀ q, q ≠ p → (st.setTile p t f).getTile q = st.getTile q ∧
      (st.setTile p t f).getFlip q = st.getFlip q) ∧
    (∀ ops : List (Vec2 ℤ × ℤ × Flips), (∀ o ∈ ops, o.1 ≠ p) →
      (applyOps (st.setTile p t f) ops).getTile p = t ∧
      (applyOps (st.setTile p t f) ops).getFlip p = f) := by
  refine ⟨⟨?_, ?_⟩, ?_, ?_⟩
  · simp [TileLayer.setTile, TileLayer.getTile]
  · simp [TileLayer.setTile, TileLayer.getFlip]
  · intro q hq
    constructor <;> simp [TileLayer.setTile, TileLayer.getTile, TileLayer.getFlip, hq]
  · intro ops hops
    have h := applyOps_tiles_eq p ops (st.setTile p t f) hops
    constructor
    · show ((applyOps (st.setTile p t f) ops).tiles p).tile = t
      rw [h]
      simp [TileLayer.setTile]
    · show ((applyOps (st.setTile p t f) ops).tiles p).flip = f
      rw [h]
      simp [TileLayer.setTile]

/-- Concrete instance of C7 on a 2×2 layer. -/
theorem setTile_get_persistence_witness :
    validPos exLayerBase.layerSize ⟨0, 0⟩ ∧
    ((exLayerBase.setTile ⟨0, 0⟩ 5 ⟨true, true, false⟩).getTile ⟨0, 0⟩ = 5 ∧
     (exLayerBase.setTile ⟨0, 0⟩ 5 ⟨true, true, false⟩).getFlip ⟨0, 0⟩ = ⟨true, true, false⟩) ∧
    ((exLayerBase.setTile ⟨0, 0⟩ 5 ⟨true, true, false⟩).getTile ⟨1, 1⟩ =
      exLayerBase.getTile ⟨1, 1⟩) ∧
    ((applyOps (exLayerBase.setTile ⟨0, 0⟩ 5 ⟨true, true, false⟩)
        [(⟨1, 0⟩, 9, Flips.noFlip)]).getTile ⟨0, 0⟩ = 5) := by
  have h := setTile_get_persistence exLayerBase ⟨0, 0⟩ 5 ⟨true, true, false⟩ (by decide)
  exact ⟨by decide, h.1,
    (h.2.1 ⟨1, 1⟩ (by decide)).1,
    (h.2.2 [(⟨1, 0⟩, 9, Flips.noFlip)] (by decide)).1⟩

/-- Claim C8: after `clear()` every cell reports the `NoTile` sentinel and the
empty flip set, and the same holds immediately after construction. -/
theorem clear_and_init_cells (st : TileLayer) (p : Vec2 ℤ) (sz : Vec2 ℤ)
    (o : TileOrientation) (ts : Tileset) :
    (st.clear.getTile p = NoTile ∧ st.clear.getFlip p = Flips.noFlip) ∧
    ((TileLayer.init sz o ts).getTile p = NoTile ∧
     (TileLayer.init sz o ts).getFlip p = Flips.noFlip) :=
  ⟨⟨rfl, rfl⟩, ⟨rfl, rfl⟩⟩

/-- Claim C6: with no texture bound, or with Unknown orientation, `draw` is a
silent no-op: it emits nothing to the target, performs no tessellation, and
leaves the layer state unchanged. -/
theorem inactive_draw_noop (st : TileLayer) (view : View)
    (h : st.tileset.hasTexture = false ∨ st.orientation = TileOrientation.Unknown) :
    drawStep st view = ⟨st, Option.none, false⟩ := by
  simp only [drawStep]
  rw [if_pos h]

/-- Concrete instance of C6 on a layer without a texture. -/
theorem inactive_draw_noop_witness :
    (exLayerNoTex.tileset.hasTexture = false ∨
      exLayerNoTex.orientation = TileOrientation.Unknown) ∧
    drawStep exLayerNoTex ⟨⟨0, 0⟩, ⟨100, 100⟩⟩ = ⟨exLayerNoTex, Option.none, false⟩ :=
  ⟨Or.inl rfl, inactive_draw_noop exLayerNoTex ⟨⟨0, 0⟩, ⟨100, 100⟩⟩ (Or.inl rfl)⟩

theorem updateGeometry_orientation (s : TileLayer) :
    (updateGeometry s).orientation = s.orientation := by
  unfold updateGeometry; split <;> rfl

theorem updateGeometry_tileSize (s : TileLayer) :
    (updateGeometry s).tileSize = s.tileSize := by
  unfold updateGeometry; split <;> rfl

theorem updateGeometry_layerSize (s : TileLayer) :
    (updateGeometry s).layerSize = s.layerSize := by
  unfold updateGeometry; split <;> rfl

theorem updateGeometry_rect (s : TileLayer) : (updateGeometry s).rect = s.rect := by
  unfold updateGeometry; split <;> rfl

theorem updateGeometry_tileset (s : TileLayer) :
    (updateGeometry s).tileset = s.tileset := by
  unfold updateGeometry; split <;> rfl

/-- The visible rectangle computed by `draw` depends only on the orientation,
the tile size and the layer size (and the view), not on the cached rectangle
or the vertex array. -/
theorem computeVisibleRect_congr (s s' : TileLayer) (view : View)
    (h1 : s'.orientation = s.orientation) (h2 : s'.tileSize = s.tileSize)
    (h3 : s'.layerSize = s.layerSize) :
    computeVisibleRect s' view = computeVisibleRect s view := by
  unfold computeVisibleRect gridCandidate interRect localRect viewSquare layerWorldRect
    clampRect effTileSize growAmount
  rw [h1, h2, h3]

/-- Claim C4: a second `draw` with an unchanged view recomputes the same
visible rectangle as the cached one, so it skips clearing and rebuilding the
vertex array and leaves the layer state (including the cached vertex stream)
unchanged. -/
theorem draw_twice_idempotent (st : TileLayer) (view : View) :
    (drawStep (drawStep st view).state view).state = (drawStep st view).state ∧
    (drawStep (drawStep st view).state view).retessellated = false := by
  by_cases h1 : st.tileset.hasTexture = false ∨ st.orientation = TileOrientation.Unknown
  · have e1 : drawStep st view = ⟨st, Option.none, false⟩ := by
      simp only [drawStep]; rw [if_pos h1]
    rw [e1]
    show (drawStep st view).state = st ∧ (drawStep st view).retessellated = false
    rw [e1]
    exact ⟨rfl, rfl⟩
  · by_cases h2 : computeVisibleRect st view = st.rect
    · have e1 : drawStep st view = ⟨st, Option.some st.vertices, false⟩ := by
        simp only [drawStep]; rw [if_neg h1, if_pos h2]
      rw [e1]
      show (drawStep st view).state = st ∧ (drawStep st view).retessellated = false
      rw [e1]
      exact ⟨rfl, rfl⟩
    · have e1 : drawStep st view =
          ⟨updateGeometry { st with rect := computeVisibleRect st view },
           Option.some (updateGeometry { st with rect := computeVisibleRect st view }).vertices,
           true⟩ := by
        simp only [drawStep]; rw [if_neg h1, if_neg h2]
      set st2 := updateGeometry { st with rect := computeVisibleRect st view } with hst2
      have f1 : st2.orientation = st.orientation := by
        rw [hst2, updateGeometry_orientation]
      have f2 : st2.tileSize = st.tileSize := by
        rw [hst2, updateGeometry_tileSize]
      have f3 : st2.layerSize = st.layerSize := by
        rw [hst2, updateGeometry_layerSize]
      have f4 : st2.tileset = st.tileset := by
        rw [hst2, updateGeometry_tileset]
      have hrect : st2.rect = computeVisibleRect st view := by
        rw [hst2, updateGeometry_rect]
      have hguard : ¬(st2.tileset.hasTexture = false ∨
          st2.orientation = TileOrientation.Unknown) := by
        rw [f4, f1]; exact h1
      have hcomp : computeVisibleRect st2 view = computeVisibleRect st view :=
        computeVisibleRect_congr st st2 view f1 f2 f3
      have e2 : drawStep st2 view = ⟨st2, Option.some st2.vertices, false⟩ := by
        simp only [drawStep]; rw [if_neg hguard, if_pos (hcomp.trans hrect.symm)]
      rw [e1]
      show (drawStep st2 view).state = st2 ∧ (drawStep st2 view).retessellated = false
      rw [e2]
      exact ⟨rfl, rfl⟩

/-- Claim C2 (the failure witness): the rectangle `commitGeometry` hands to
`fillVertexArray` on a 2×2 layer is the inclusive rectangle `[0, 2] × [0, 2]`,
whose iteration visits the out-of-bounds cell (2, 0) — on which the
`assert(m_tiles.isValid(cell))` of `fillVertexArray` fires. -/
theorem commitRect_visits_invalid_cell :
    (⟨2, 0⟩ : Vec2 ℤ) ∈ visitedCells (commitRect ⟨2, 2⟩) ∧
    ¬ validPos (⟨2, 2⟩ : Vec2 ℤ) ⟨2, 0⟩ := by
  constructor
  · decide
  · decide

theorem mem_intRangeAux :
    ∀ (n : ℕ) (lo x : ℤ), x ∈ intRangeAux lo n → lo ≤ x ∧ x < lo + n := by
  intro n
  induction n with
  | zero =>
    intro lo x h
    simp [intRangeAux] at h
  | succ n ih =>
    intro lo x h
    rw [intRangeAux] at h
    rcases List.mem_cons.1 h with h1 | h2
    · subst h1
      omega
    · have := ih (lo + 1) x h2
      omega

theorem mem_intRange {x lo hi : ℤ} (h : x ∈ intRange lo hi) : lo ≤ x ∧ x ≤ hi := by
  unfold intRange at h
  have := mem_intRangeAux _ _ _ h
  omega

theorem mem_visitedCells {c : Vec2 ℤ} {r : Rect2 ℤ} (h : c ∈ visitedCells r) :
    r.min.x ≤ c.x ∧ c.x ≤ r.max.x ∧ r.min.y ≤ c.y ∧ c.y ≤ r.max.y := by
  unfold visitedCells at h
  simp only [List.mem_flatMap, List.mem_map] at h
  obtain ⟨y, hy, x, hx, hc⟩ := h
  subst hc
  have h1 := mem_intRange hy
  have h2 := mem_intRange hx
  exact ⟨h2.1, h2.2, h1.1, h1.2⟩

/-- Claim C10: on the draw path every cell visited by the tessellation loop
over the computed visible rectangle lies within the grid bounds
`[0, width) × [0, height)`, for any view, orientation and tile size — the
in-bounds assertion of `fillVertexArray` cannot fire from `draw`. -/
theorem draw_path_accesses_in_bounds (st : TileLayer) (view : View) (cell : Vec2 ℤ)
    (h : cell ∈ visitedCells (computeVisibleRect st view)) :
    validPos st.layerSize cell := by
  unfold computeVisibleRect at h
  by_cases hI : rectsIntersect (localRect st view) (layerWorldRect st)
  · rw [if_pos hI] at h
    have hb := mem_visitedCells h
    unfold clampTo clampRect Rect2.fromPositionSize at hb
    simp only [Vec2.add_def, Vec2.sub_def] at hb
    obtain ⟨hb1, hb2, hb3, hb4⟩ := hb
    have e1 : (0 : ℤ) ≤ cell.x := le_trans (le_max_right _ _) hb1
    have e2 : cell.x ≤ 0 + (st.layerSize.x - 1) := le_trans hb2 (min_le_right _ _)
    have e3 : (0 : ℤ) ≤ cell.y := le_trans (le_max_right _ _) hb3
    have e4 : cell.y ≤ 0 + (st.layerSize.y - 1) := le_trans hb4 (min_le_right _ _)
    exact ⟨e1, by omega, e3, by omega⟩
  · rw [if_neg hI] at h
    have : visitedCells emptyRectI = [] := rfl
    rw [this] at h
    exact absurd h (List.not_mem_nil _)

/-- A 2×2 orthogonal layer with 32×32 tiles, ready to draw. -/
def exLayerDraw : TileLayer := exLayerBase.setTileSize ⟨32, 32⟩

/-- A view centered on `exLayerDraw` (world extent 64×64) of size 2×2. -/
def exView : View := ⟨⟨32, 32⟩, ⟨2, 2⟩⟩

theorem exEff : effTileSize exLayerDraw = ⟨32, 32⟩ := rfl

theorem exGrow : growAmount (⟨32, 32⟩ : Vec2 ℤ) = 32 := by
  norm_num [growAmount]

theorem exLocal : localRect exLayerDraw exView =
    ⟨⟨32 - sqrt2 * 2 / 2 - 32, 32 - sqrt2 * 2 / 2 - 32⟩,
     ⟨32 + sqrt2 * 2 / 2 + 32, 32 + sqrt2 * 2 / 2 + 32⟩⟩ := by
  simp only [localRect, viewSquare, Rect2.grow, Rect2.fromCenterSize, exEff, exGrow]
  norm_num [exView]

theorem exLayerWorld : layerWorldRect exLayerDraw = ⟨⟨0, 0⟩, ⟨64, 64⟩⟩ := by
  simp only [layerWorldRect, exEff, Rect2.fromPositionSize, Vec2.toQ, Vec2.mul_def,
    Vec2.add_def]
  norm_num [exLayerDraw, exLayerBase, exTileset, TileLayer.setTileSize, TileLayer.init,
    TileLayer.clear]

theorem exIntersects :
    rectsIntersect (localRect exLayerDraw exView) (layerWorldRect exLayerDraw) := by
  rw [exLocal, exLayerWorld]
  unfold rectsIntersect
  norm_num [sqrt2]

theorem exInter :
    interRect (localRect exLayerDraw exView) (layerWorldRect exLayerDraw) =
      ⟨⟨0, 0⟩, ⟨64, 64⟩⟩ := by
  rw [exLocal, exLayerWorld]
  unfold interRect
  norm_num [sqrt2, max_def, min_def]

theorem exCandidate : gridCandidate exLayerDraw exView = ⟨⟨0, 0⟩, ⟨2, 2⟩⟩ := by
  simp only [gridCandidate, exEff]
  rw [exInter]
  norm_num [truncQ, Rect2.getPosition, Rect2.getSize, Rect2.fromPositionSize, Vec2.toQ,
    Vec2.add_def, Vec2.sub_def]

/-- Evaluating the draw-path rectangle computation on the small centered
view: the whole 2×2 grid survives. -/
theorem exCompute : computeVisibleRect exLayerDraw exView = ⟨⟨0, 0⟩, ⟨1, 1⟩⟩ := by
  simp only [computeVisibleRect]
  rw [if_pos exIntersects, exCandidate]
  unfold clampTo clampRect
  norm_num [Rect2.fromPositionSize, Vec2.add_def, Vec2.sub_def, exLayerDraw, exLayerBase,
    exTileset, TileLayer.setTileSize, TileLayer.init, TileLayer.clear, max_def, min_def]

/-- Concrete instance of C10: the cell (0,0) is visited on the draw path of
the example layer and is indeed in bounds. -/
theorem draw_path_accesses_in_bounds_witness :
    ((⟨0, 0⟩ : Vec2 ℤ) ∈ visitedCells (computeVisibleRect exLayerDraw exView)) ∧
    validPos exLayerDraw.layerSize ⟨0, 0⟩ :=
  ⟨by rw [exCompute]; decide,
   draw_path_accesses_in_bounds exLayerDraw exView ⟨0, 0⟩ (by rw [exCompute]; decide)⟩

/-- Refutation of claim C3 as stated: on the active 2×2 layer with 32×32
tiles (world extent 64×64), the view centered on the grid with size 2×2 —
strictly smaller than the layer — still yields the FULL grid rectangle
`[0, layerSize-1]`, not a strictly smaller one. -/
theorem view_cull_strict_counterexample :
    exLayerDraw.tileset.hasTexture = true ∧
    exLayerDraw.orientation = TileOrientation.Orthogonal ∧
    exView.center.x = ((exLayerDraw.layerSize.x * (effTileSize exLayerDraw).x : ℤ) : ℚ) / 2 ∧
    exView.center.y = ((exLayerDraw.layerSize.y * (effTileSize exLayerDraw).y : ℤ) : ℚ) / 2 ∧
    exView.size.x < ((exLayerDraw.layerSize.x * (effTileSize exLayerDraw).x : ℤ) : ℚ) ∧
    exView.size.y < ((exLayerDraw.layerSize.y * (effTileSize exLayerDraw).y : ℤ) : ℚ) ∧
    computeVisibleRect exLayerDraw exView = clampRect exLayerDraw := by
  refine ⟨rfl, rfl, ?_, ?_, ?_, ?_, ?_⟩
  · rw [exEff]
    norm_num [exView, exLayerDraw, exLayerBase, exTileset, TileLayer.init,
      TileLayer.setTileSize, TileLayer.clear]
  · rw [exEff]
    norm_num [exView, exLayerDraw, exLayerBase, exTileset, TileLayer.init,
      TileLayer.setTileSize, TileLayer.clear]
  · rw [exEff]
    norm_num [exView, exLayerDraw, exLayerBase, exTileset, TileLayer.init,
      TileLayer.setTileSize, TileLayer.clear]
  · rw [exEff]
    norm_num [exView, exLayerDraw, exLayerBase, exTileset, TileLayer.init,
      TileLayer.setTileSize, TileLayer.clear]
  · rw [exCompute]
    norm_num [clampRect, exLayerDraw, exLayerBase, exTileset, Rect2.fromPositionSize,
      Vec2.add_def, Vec2.sub_def, TileLayer.init, TileLayer.setTileSize, TileLayer.clear]

/-- Whenever the grown local rectangle meets the layer rectangle, the computed
grid rectangle lies clamped within `[0, layerSize - 1]`. -/
theorem visibleRect_within_clamp (st : TileLayer) (view : View)
    (hI : rectsIntersect (localRect st view) (layerWorldRect st)) :
    rectWithin (computeVisibleRect st view) (clampRect st) := by
  simp only [computeVisibleRect]
  rw [if_pos hI]
  unfold rectWithin clampTo clampRect Rect2.fromPositionSize
  simp only [Vec2.add_def, Vec2.sub_def]
  exact ⟨le_max_right _ _, le_max_right _ _, min_le_right _ _, min_le_right _ _⟩

/-- Claim C3 (amended): whenever the grown local view rectangle meets the
layer rectangle, the computed grid rectangle lies clamped within
`[0, layerSize - 1]`; it is STRICTLY smaller than the full layer bounds when
the view is centered on the grid and sufficiently smaller than the layer —
namely when `√2·max(view.w, view.h)/2` plus the one-tile growth margin plus
half an effective tile fits inside half the layer's world extent on each axis
(not for every view merely smaller than the layer); and whenever the grown
local view rectangle does not meet the layer rectangle, the computed grid
rectangle is the designated empty rectangle. -/
theorem view_cull_clamped_and_strict :
    (∀ (st : TileLayer) (view : View),
      rectsIntersect (localRect st view) (layerWorldRect st) →
      rectWithin (computeVisibleRect st view) (clampRect st)) ∧
    (∀ (st : TileLayer) (view : View),
      1 ≤ (effTileSize st).x → 1 ≤ (effTileSize st).y →
      0 ≤ view.size.x → 0 ≤ view.size.y →
      view.center.x = ((st.layerSize.x * (effTileSize st).x : ℤ) : ℚ) / 2 →
      view.center.y = ((st.layerSize.y * (effTileSize st).y : ℤ) : ℚ) / 2 →
      sqrt2 * max view.size.x view.size.y / 2 + growAmount (effTileSize st) +
        ((effTileSize st).x : ℚ) / 2 ≤ view.center.x →
      sqrt2 * max view.size.x view.size.y / 2 + growAmount (effTileSize st) +
        ((effTileSize st).y : ℚ) / 2 ≤ view.center.y →
      rectWithin (computeVisibleRect st view) (clampRect st) ∧
        computeVisibleRect st view ≠ clampRect st) ∧
    (∀ (st : TileLayer) (view : View),
      ¬ rectsIntersect (localRect st view) (layerWorldRect st) →
      computeVisibleRect st view = emptyRectI) := by
  refine ⟨fun st view hI => visibleRect_within_clamp st view hI, ?_, ?_⟩
  · intro st view hex hey hsx hsy hcx hcy hmx hmy
    have hex' : (1 : ℚ) ≤ ((effTileSize st).x : ℚ) := by exact_mod_cast hex
    have hey' : (1 : ℚ) ≤ ((effTileSize st).y : ℚ) := by exact_mod_cast hey
    have hgx : ((effTileSize st).x : ℚ) ≤ growAmount (effTileSize st) := by
      unfold growAmount
      exact_mod_cast le_max_left (effTileSize st).x (effTileSize st).y
    have hgy : ((effTileSize st).y : ℚ) ≤ growAmount (effTileSize st) := by
      unfold growAmount
      exact_mod_cast le_max_right (effTileSize st).x (effTileSize st).y
    have hs0 : 0 ≤ sqrt2 * max view.size.x view.size.y :=
      mul_nonneg (by norm_num [sqrt2]) (le_trans hsx (le_max_left _ _))
    have hlocminx : (localRect st view).min.x =
        view.center.x - sqrt2 * max view.size.x view.size.y / 2 -
          growAmount (effTileSize st) := by
      simp only [localRect, viewSquare, Rect2.grow, Rect2.fromCenterSize]
    have hlocminy : (localRect st view).min.y =
        view.center.y - sqrt2 * max view.size.x view.size.y / 2 -
          growAmount (effTileSize st) := by
      simp only [localRect, viewSquare, Rect2.grow, Rect2.fromCenterSize]
    have hlocmaxx : (localRect st view).max.x =
        view.center.x + sqrt2 * max view.size.x view.size.y / 2 +
          growAmount (effTileSize st) := by
      simp only [localRect, viewSquare, Rect2.grow, Rect2.fromCenterSize]
    have hlocmaxy : (localRect st view).max.y =
        view.center.y + sqrt2 * max view.size.x view.size.y / 2 +
          growAmount (effTileSize st) := by
      simp only [localRect, viewSquare, Rect2.grow, Rect2.fromCenterSize]
    have hLminx : (layerWorldRect st).min.x = 0 := rfl
    have hLminy : (layerWorldRect st).min.y = 0 := rfl
    have hLmaxx : (layerWorldRect st).max.x = 2 * view.center.x := by
      simp only [layerWorldRect, Rect2.fromPositionSize, Vec2.toQ, Vec2.mul_def, Vec2.add_def]
      rw [hcx]
      ring
    have hLmaxy : (layerWorldRect st).max.y = 2 * view.center.y := by
      simp only [layerWorldRect, Rect2.fromPositionSize, Vec2.toQ, Vec2.mul_def, Vec2.add_def]
      rw [hcy]
      ring
    have hc0x : 0 < view.center.x := by
      linarith [hmx, hs0, hgx, hex']
    have hc0y : 0 < view.center.y := by
      linarith [hmy, hs0, hgy, hey']
    have hI : rectsIntersect (localRect st view) (layerWorldRect st) := by
      unfold rectsIntersect
      refine ⟨?_, ?_, ?_, ?_⟩
      · rw [hlocminx, hLmaxx]
        linarith [hmx, hs0, hgx, hex', hc0x]
      · rw [hLminx, hlocmaxx]
        linarith [hmx, hs0, hgx, hex', hc0x]
      · rw [hlocminy, hLmaxy]
        linarith [hmy, hs0, hgy, hey', hc0y]
      · rw [hLminy, hlocmaxy]
        linarith [hmy, hs0, hgy, hey', hc0y]
    refine ⟨visibleRect_within_clamp st view hI, ?_⟩
    intro hEqn
    have hproj : (computeVisibleRect st view).min.x = 0 := by rw [hEqn]; rfl
    have hminx0 : (0 : ℚ) ≤ view.center.x - sqrt2 * max view.size.x view.size.y / 2 -
        growAmount (effTileSize st) := by
      linarith [hmx, hs0, hgx, hex']
    have hcand : 1 ≤ (gridCandidate st view).min.x := by
      simp only [gridCandidate, interRect, Rect2.fromPositionSize, Rect2.getPosition,
        Vec2.toQ]
      rw [hlocminx, hLminx, max_eq_left hminx0]
      have hexpos : (0 : ℚ) < ((effTileSize st).x : ℚ) := by linarith
      have hdiv : (1 : ℚ) / 2 ≤
          (view.center.x - sqrt2 * max view.size.x view.size.y / 2 -
            growAmount (effTileSize st)) / ((effTileSize st).x : ℚ) := by
        rw [le_div_iff₀ hexpos]
        linarith [hmx]
      unfold truncQ
      rw [if_pos (by linarith)]
      rw [Int.le_floor]
      push_cast
      linarith
    have hge1 : 1 ≤ (computeVisibleRect st view).min.x := by
      simp only [computeVisibleRect]
      rw [if_pos hI]
      unfold clampTo
      exact le_trans hcand (le_max_left _ _)
    rw [hproj] at hge1
    exact absurd hge1 (by norm_num)
  · intro st view hI
    simp only [computeVisibleRect]
    rw [if_neg hI]

/-- A 100×100 orthogonal layer with 32×32 tiles (world extent 3200×3200). -/
def exLayerBig : TileLayer :=
  (TileLayer.init ⟨100, 100⟩ TileOrientation.Orthogonal exTileset).setTileSize ⟨32, 32⟩

/-- A 100×100 view centered on `exLayerBig`. -/
def exViewBig : View := ⟨⟨1600, 1600⟩, ⟨100, 100⟩⟩

/-- A view far away from `exLayerDraw`. -/
def exViewFar : View := ⟨⟨10000, 10000⟩, ⟨2, 2⟩⟩

theorem exEffBig : effTileSize exLayerBig = ⟨32, 32⟩ := rfl

theorem exLocalFar : localRect exLayerDraw exViewFar =
    ⟨⟨10000 - sqrt2 * 2 / 2 - 32, 10000 - sqrt2 * 2 / 2 - 32⟩,
     ⟨10000 + sqrt2 * 2 / 2 + 32, 10000 + sqrt2 * 2 / 2 + 32⟩⟩ := by
  simp only [localRect, viewSquare, Rect2.grow, Rect2.fromCenterSize, exEff, exGrow]
  norm_num [exViewFar]

theorem exFarMisses :
    ¬ rectsIntersect (localRect exLayerDraw exViewFar) (layerWorldRect exLayerDraw) := by
  rw [exLocalFar, exLayerWorld]
  unfold rectsIntersect
  norm_num [sqrt2]

/-- Concrete instances of the three parts of the amended C3 statement. -/
theorem view_cull_clamped_and_strict_witness :
    rectWithin (computeVisibleRect exLayerDraw exView) (clampRect exLayerDraw) ∧
    (rectWithin (computeVisibleRect exLayerBig exViewBig) (clampRect exLayerBig) ∧
      computeVisibleRect exLayerBig exViewBig ≠ clampRect exLayerBig) ∧
    computeVisibleRect exLayerDraw exViewFar = emptyRectI :=
  ⟨view_cull_clamped_and_strict.1 exLayerDraw exView exIntersects,
   view_cull_clamped_and_strict.2.1 exLayerBig exViewBig
     (by rw [exEffBig]; norm_num)
     (by rw [exEffBig]; norm_num)
     (by norm_num [exViewBig])
     (by norm_num [exViewBig])
     (by rw [exEffBig]
         norm_num [exViewBig, exLayerBig, exLayerBase, exTileset, TileLayer.init,
           TileLayer.setTileSize, TileLayer.clear])
     (by rw [exEffBig]
         norm_num [exViewBig, exLayerBig, exLayerBase, exTileset, TileLayer.init,
           TileLayer.setTileSize, TileLayer.clear])
     (by rw [exEffBig, exGrow]
         norm_num [exViewBig, sqrt2])
     (by rw [exEffBig, exGrow]
         norm_num [exViewBig, sqrt2])
     ,
   view_cull_clamped_and_strict.2.2 exLayerDraw exViewFar exFarMisses⟩

end GfTileLayer
